import Mathlib

/-!
Shallow embedding of the Sublime Text plugin `sublime-text-merlin.py`,
the editor front end of the merlin OCaml analyzer.  Editor views are
modelled by the slice of the Sublime API the plugin touches; every call
that crosses the plugin/analyzer boundary (a `MerlinView` method) is
recorded as an `MCall` event, so that command handlers become pure
functions from their inputs to the trace of analyzer calls plus their
UI effect.
-/

namespace SublimeMerlin

/-- Analyzer-native position: 1-based `line`, 0-based `col` (spec "Position"). -/
structure MPos where
  line : Nat
  col : Nat
deriving DecidableEq

/-- The slice of the Sublime `View` API used by the plugin.  Offsets are
editor-native 0-based absolute character offsets; `rowcol` yields the
0-based (row, column) of an offset and `textPoint` is its inverse
direction.  `sel0` is `view.sel()[0].begin()`, the begin of the first
selection region (a Sublime view always carries at least one region). -/
structure View where
  rowcol : Nat → Nat × Nat
  textPoint : Nat → Nat → Nat
  lineBegin : Nat → Nat
  substr : Nat → Nat → String
  fullLine : Nat → Nat → Nat × Nat
  sel0 : Nat

/-- Modelled from the spec: `merlin_pos` is imported from the helpers
module that is absent from the sources.  Per the spec's ResultCorrelator
section it converts an analyzer Position (1-based line, 0-based column)
to the editor-native offset, i.e. `view.text_point(line - 1, col)`. -/
def merlin_pos (v : View) (p : MPos) : Nat :=
  v.textPoint (p.line - 1) p.col

/-- One call across the plugin/analyzer boundary (a `MerlinView` method). -/
inductive MCall where
  | sync
  | typeEnclosing (line col : Nat)
  | locate (line col : Nat) (kind : Option String) (ident : Option String)
  | completeCursor (pfx : String) (line col : Nat)
  | findUse (moduleName : String)
  | removeBuildPath (dir : String)
  | removeSourcePath (dir : String)
  | extensionEnable (names : List String)
  | extensionDisable (names : List String)
  | whichPath (candidates : List String)
deriving DecidableEq

/-- Position-dependent analyzer queries: the ones whose answer depends on
the buffer content and a cursor position. -/
def isPosQuery : MCall → Bool
  | MCall.typeEnclosing _ _ => true
  | MCall.locate _ _ _ _ => true
  | MCall.completeCursor _ _ _ => true
  | _ => false

/-- `syncBeforeQueries seen t = true` iff every position-dependent query in
`t` is preceded by a `sync` call (`seen` records whether a sync occurred
already before `t`). -/
def syncBeforeQueries (seen : Bool) : List MCall → Bool
  | [] => true
  | c :: rest =>
      (!isPosQuery c || seen) &&
        syncBeforeQueries (seen || decide (c = MCall.sync)) rest

/-! ### Type enclosing (src 162-242) -/

/-- One item of a `type_enclosing` response (src 176-180). -/
structure TEItem where
  type : String
  tail : String
  start : MPos
  stop : MPos
deriving DecidableEq

/-- `MerlinTypeEnclosing._item_format` (src 190-196). -/
def item_format (language : String) (item : TEItem) : String :=
  let text := item.type
  let text := if item.tail = "position" then text ++ " (*tail-position*)" else text
  let text := if item.tail = "call" then text ++ " (*tail-call*)" else text
  "```" ++ language ++ "\n" ++ text ++ "\n```"

/-- The analyzer-call trace of `MerlinTypeEnclosing.__init__` (src 167-183):
sync, then `type_enclosing(line + 1, col)` where `(line, col)` is the
0-based row/column of the given position (defaulting to the first
selection's begin). -/
def typeEnclosing_init_trace (v : View) (pos : Option Nat) : List MCall :=
  let p := pos.getD v.sel0
  let rc := v.rowcol p
  [MCall.sync, MCall.typeEnclosing (rc.1 + 1) rc.2]

/-- `MerlinTypeEnclosing._first` (src 201-202) accesses `self.enclosing[0]`
unconditionally; `none` models the `IndexError` raised on an empty list. -/
def te_first (language : String) : List TEItem → Option String
  | [] => none
  | item :: _ => some (item_format language item)

/-- `MerlinTypeEnclosing._items` (src 198-199). -/
def te_items (language : String) (enclosing : List TEItem) : List String :=
  enclosing.map (item_format language)

/-- `MerlinTypeEnclosing.show_panel` (src 204-205) renders `_first`;
`none` is the uncaught `IndexError` path, `some s` shows popup text `s`. -/
def show_panel_popup (language : String) (enclosing : List TEItem) : Option String :=
  te_first language enclosing

/-- `MerlinTypeEnclosing._item_region` (src 185-188). -/
def item_region (v : View) (item : TEItem) : Nat × Nat :=
  (merlin_pos v item.start, merlin_pos v item.stop)

/-- `MerlinTypeEnclosing.on_done` (src 210-214): `some r` means the view
selection is cleared and replaced by region `r`; `none` means the view is
left untouched.  Only fires when `index > -1`. -/
def typeEnclosing_on_done (v : View) (enclosing : List TEItem) (index : Int) :
    Option (Nat × Nat) :=
  if index > -1 then
    some (item_region v (enclosing.getD index.toNat ⟨"", "", ⟨0, 0⟩, ⟨0, 0⟩⟩))
  else none

/-! ### Locate (src 245-321) -/

/-- A decoded locate response: a dict carrying `pos` and optionally
`file`, or a plain message string. -/
inductive LocateResult where
  | found (file : Option String) (pos : MPos)
  | message (s : String)
deriving DecidableEq

/-- UI effect of `merlin_locate_result`. -/
inductive UIAction where
  | openFile (encoded : String)
  | moveCaret (offset : Nat)
  | dialog (s : String)
deriving DecidableEq

/-- `merlin_locate_result` (src 245-259): an external file is opened at
`"file:line:col+1"` (Sublime `ENCODED_POSITION`); a same-file result moves
the caret of the active view to the converted offset; a non-dict result is
shown in a message dialog. -/
def merlin_locate_result (v : View) (result : LocateResult) : UIAction :=
  match result with
  | LocateResult.found (some file) pos =>
      UIAction.openFile (file ++ ":" ++ toString pos.line ++ ":" ++ toString (pos.col + 1))
  | LocateResult.found none pos => UIAction.moveCaret (merlin_pos v pos)
  | LocateResult.message s => UIAction.dialog s

/-- `MerlinLocateMli.kind` (src 275-276). -/
def MerlinLocateMli_kind : String := "mli"

/-- `MerlinLocateMl.kind` (src 299-301). -/
def MerlinLocateMl_kind : String := "ml"

/-- First definition of `MerlinLocateMf.kind` (src 307-309); shadowed by
the second class definition of the same name. -/
def MerlinLocateMf_kind_shadowed : String := "mf"

/-- Effective `MerlinLocateMf.kind`: the class is defined twice (src 307
and src 315) and the later definition wins, returning "mfi". -/
def MerlinLocateMf_kind : String := "mfi"

/-- `MerlinLocateNameMli.kind` (src 286-287). -/
def MerlinLocateNameMli_kind : String := "mli"

/-- `MerlinLocateNameMl.kind` (src 303-305). -/
def MerlinLocateNameMl_kind : String := "ml"

/-- First definition of `MerlinLocateNameMf.kind` (src 311-313); shadowed
by the second class definition of the same name. -/
def MerlinLocateNameMf_kind_shadowed : String := "mfi"

/-- Effective `MerlinLocateNameMf.kind`: the class is defined twice
(src 311 and src 319) and the later definition wins, returning "mf". -/
def MerlinLocateNameMf_kind : String := "mf"

/-- `MerlinLocateMli.run` (src 266-273), shared by the cursor-locate
subclasses via their `kind()`: sync, then
`locate(line + 1, col, kind=self.kind())` with no identifier. -/
def locate_run_trace (v : View) (kind : String) : List MCall :=
  let rc := v.rowcol v.sel0
  [MCall.sync, MCall.locate (rc.1 + 1) rc.2 (some kind) none]

/-- `MerlinLocateNameMli.on_done` (src 289-296), shared by the
locate-by-name subclasses: sync, then `locate(line + 1, col, ident=name)`.
Note that no `kind` argument is passed. -/
def locateName_on_done_trace (v : View) (name : String) : List MCall :=
  let rc := v.rowcol v.sel0
  [MCall.sync, MCall.locate (rc.1 + 1) rc.2 none (some name)]

/-! ### Menu-driven commands (src 35-159, 323-359) -/

/-- `MerlinLoadPackage.on_done` (src 47-49). -/
def loadPackage_on_done (modules : List String) (index : Int) : List MCall :=
  if index ≠ -1 then [MCall.findUse (modules.getD index.toNat "")] else []

/-- `MerlinRemoveBuildPath.on_done` (src 106-108). -/
def removeBuildPath_on_done (directories : List String) (index : Int) : List MCall :=
  if index ≠ -1 then [MCall.removeBuildPath (directories.getD index.toNat "")] else []

/-- `MerlinRemoveSourcePath.on_done` (src 123-125). -/
def removeSourcePath_on_done (directories : List String) (index : Int) : List MCall :=
  if index ≠ -1 then [MCall.removeSourcePath (directories.getD index.toNat "")] else []

/-- `MerlinEnableExtension.on_done` (src 140-142). -/
def enableExtension_on_done (extensions : List String) (index : Int) : List MCall :=
  if index ≠ -1 then [MCall.extensionEnable [extensions.getD index.toNat ""]] else []

/-- `MerlinDisableExtension.on_done` (src 157-159). -/
def disableExtension_on_done (extensions : List String) (index : Int) : List MCall :=
  if index ≠ -1 then [MCall.extensionDisable [extensions.getD index.toNat ""]] else []

/-- `MerlinWhich.on_done` (src 337-341): the Bool reports whether a file
was opened (`window.open_file` on the analyzer's `which_path` answer). -/
def which_on_done (files exts : List String) (index : Int) : List MCall × Bool :=
  if index ≠ -1 then
    ([MCall.whichPath (exts.map (fun ext => files.getD index.toNat "" ++ ext))], true)
  else ([], false)

/-! ### Autocomplete (src 362-426)

The completion token regex at src 379 is `(([\w.]|->)+)`: tokens are
maximal runs of word characters (modelled as ASCII alphanumerics plus
underscore), dots, and the two-character arrow `->`, scanned left to
right, and `findall(...)[-1][0]` picks the last one.  -/

/-- Characters matched by the regex class `[\w.]`. -/
def isTokChar (c : Char) : Bool :=
  c.isAlphanum || c = '_' || c = '.'

/-- Greedy match of `([\w.]|->)+` at the head of the character list:
returns the matched run and the rest of the input.  An empty run means
the regex does not match at this position. -/
def tokRun : List Char → List Char × List Char
  | [] => ([], [])
  | [c] => if isTokChar c then ([c], []) else ([], [c])
  | c :: c' :: rest =>
      if isTokChar c then
        let pr := tokRun (c' :: rest)
        (c :: pr.1, pr.2)
      else if c = '-' && c' = '>' then
        let pr := tokRun rest
        ('-' :: '>' :: pr.1, pr.2)
      else ([], c :: c' :: rest)

/-- All regex matches, scanning left to right as `re.findall` does:
skip one character when the regex does not match, otherwise emit the
maximal match and continue after it.  `fuel` bounds the scan; one more
than the input length always suffices. -/
def tokScan : Nat → List Char → List (List Char)
  | 0, _ => []
  | _ + 1, [] => []
  | fuel + 1, c :: rest =>
      let pr := tokRun (c :: rest)
      if pr.1.isEmpty then tokScan fuel rest
      else pr.1 :: tokScan fuel pr.2

/-- The expanded completion token before the cursor (src 378-381): the
last regex match on the line, or `""` when there is none (the
`IndexError` from `[-1]` is caught). -/
def lastTok (line : String) : String :=
  match (tokScan (line.length + 1) line.toList).getLast? with
  | some t => String.mk t
  | none => ""

/-- `noTokAt cs = true` iff the token regex matches at no position of
`cs`: no character is a `[\w.]` character and no `->` occurs. -/
def noTokAt : List Char → Bool
  | [] => true
  | [c] => !isTokChar c
  | c :: c' :: rest =>
      !isTokChar c && !(c = '-' && c' = '>') && noTokAt (c' :: rest)

/-- One entry of a `complete_cursor` response. -/
structure CEntry where
  name : String
  desc : String
deriving DecidableEq

/-- The `Autocomplete` listener's mutable state: the pending completion
list `completions` and the three-valued flag `cplns_ready`
(`none` = Python `None`, `some false` = in flight, `some true` = ready). -/
structure AcState where
  completions : List (String × String)
  ready : Option Bool
deriving DecidableEq

/-- Value returned to Sublime by `on_query_completions`:
`default` is the tuple `([], sublime.INHIBIT_WORD_COMPLETIONS)`
(src 386), `cplns l` is a bare completion list. -/
inductive AcReturn where
  | default
  | cplns (l : List (String × String))
deriving DecidableEq

/-- Result of one `on_query_completions` call: the new listener state,
the value returned to the editor, and the analyzer calls issued. -/
structure AcOut where
  state : AcState
  ret : AcReturn
  calls : List MCall
deriving DecidableEq

/-- The text from the begin of the cursor's line to the cursor
(src 375-376), for the first location in `locations`. -/
def acLineText (v : View) (locations : List Nat) : String :=
  v.substr (v.lineBegin (locations.headD 0)) (locations.headD 0)

/-- The expanded completion token `on_query_completions` sends (src 379-381). -/
def acPfx (v : View) (locations : List Nat) : String :=
  lastTok (acLineText v locations)

/-- `Autocomplete.on_query_completions` (src 371-409), with the
synchronous `show_completions` callback (src 412-417) inlined as the
source calls it.  `entries` is the analyzer's `complete_cursor` response
as a function of the sent token and position.  The flag drives three
paths: ready (`some true`) returns the stored completions and resets;
in flight (`some false`) returns the default; unset (`none`) syncs,
issues one `complete_cursor` query, stores the formatted entries when
non-empty, flags ready, and returns the default. -/
def on_query_completions (entries : String → Nat → Nat → List CEntry)
    (v : View) (locations : List Nat) (s : AcState) : AcOut :=
  let pfx := acPfx v locations
  match s.ready with
  | some true =>
      if !s.completions.isEmpty then
        ⟨⟨[], none⟩, AcReturn.cplns s.completions, [MCall.sync]⟩
      else
        ⟨⟨s.completions, none⟩, AcReturn.default, [MCall.sync]⟩
  | some false => ⟨s, AcReturn.default, [MCall.sync]⟩
  | none =>
      let rc := v.rowcol (locations.headD 0)
      let result := entries pfx (rc.1 + 1) rc.2
      let cplns := result.map (fun r => (r.name ++ "\t" ++ r.desc, r.name))
      let completions := if !cplns.isEmpty then cplns else s.completions
      ⟨⟨completions, some true⟩, AcReturn.default,
        [MCall.sync, MCall.completeCursor pfx (rc.1 + 1) rc.2]⟩

/-! ### Error diagnostics (src 522-552) -/

/-- One element of a `report_errors` response; `start`/`stop` model the
optional `'start'`/`'end'` keys of the error dict. -/
structure ErrObj where
  start : Option MPos
  stop : Option MPos
  message : String
deriving DecidableEq

/-- Result of `MerlinBuffer.show_errors`: the underline regions passed to
`add_regions` and the new `self.error_messages` list. -/
structure ErrOut where
  underlines : List (Nat × Nat)
  error_messages : List ((Int × Int) × String)
deriving DecidableEq

/-- The stored message region (src 540-541): the full line of the error
region, widened left by one character (`Region(line_r.a - 1, line_r.b)`,
which can reach -1 on the first line, hence `Int`). -/
def err_line_region (v : View) (pStart pStop : MPos) : Int × Int :=
  let lr := v.fullLine (merlin_pos v pStart) (merlin_pos v pStop)
  ((lr.1 : Int) - 1, (lr.2 : Int))

/-- The loop body of `MerlinBuffer.show_errors` (src 531-546): one pass
over the reported errors, keeping only those carrying both `'start'` and
`'end'`, in report order.  `cw` is `clean_whitespace` from the helpers
module absent from the sources, kept abstract. -/
def show_errors_aux (v : View) (cw : String → String) : List ErrObj → ErrOut
  | [] => ⟨[], []⟩
  | e :: rest =>
      let out := show_errors_aux v cw rest
      match e.start, e.stop with
      | some ps, some pe =>
          ⟨(merlin_pos v ps, merlin_pos v pe) :: out.underlines,
            (err_line_region v ps pe, cw e.message) :: out.error_messages⟩
      | _, _ => out

/-- `MerlinBuffer.show_errors` (src 522-552): `prev` is the listener's
previous `self.error_messages`; the assignment at src 548 replaces it
with the freshly computed list, so `prev` does not flow into the result. -/
def show_errors (v : View) (cw : String → String) (errors : List ErrObj)
    (prev : List ((Int × Int) × String)) : ErrOut :=
  let _ := prev
  show_errors_aux v cw errors

/-! ### Concrete views for witnesses and counterexamples -/

/-- A trivial concrete view. -/
def vTriv : View where
  rowcol := fun _ => (0, 0)
  textPoint := fun _ _ => 0
  lineBegin := fun _ => 0
  substr := fun _ _ => ""
  fullLine := fun _ _ => (0, 0)
  sel0 := 0

/-- A view whose cursor line holds no completion token at all. -/
def vNoTok : View where
  rowcol := fun _ => (0, 4)
  textPoint := fun _ _ => 0
  lineBegin := fun _ => 0
  substr := fun _ _ => "( + "
  fullLine := fun _ _ => (0, 0)
  sel0 := 4

/-- The view before the superseding keystroke: the text before the cursor
is "Li" (cursor at offset 2 of row 0). -/
def vKeyLi : View where
  rowcol := fun _ => (0, 2)
  textPoint := fun _ _ => 0
  lineBegin := fun _ => 0
  substr := fun _ _ => "Li"
  fullLine := fun _ _ => (0, 0)
  sel0 := 2

/-- The view after the user typed one more character: the text before the
cursor is "Lis" (cursor at offset 3 of row 0). -/
def vKeyLis : View where
  rowcol := fun _ => (0, 3)
  textPoint := fun _ _ => 0
  lineBegin := fun _ => 0
  substr := fun _ _ => "Lis"
  fullLine := fun _ _ => (0, 0)
  sel0 := 3

/-- An analyzer whose completion entries depend on the sent token:
distinct answers for "Li" and "Lis". -/
def entriesLi : String → Nat → Nat → List CEntry := fun pfx _ _ =>
  if pfx = "Li" then [⟨"List", "module"⟩]
  else if pfx = "Lis" then [⟨"ListLabels", "module"⟩]
  else []

/-! ### Helper lemmas -/

/-- Characters that can appear in a completion token: `[\w.]` characters
plus the two arrow characters. -/
def tokArrowChar (c : Char) : Bool :=
  isTokChar c || c = '-' || c = '>'

theorem tokRun_of_noTok : ∀ cs : List Char, noTokAt cs = true → tokRun cs = ([], cs)
  | [], _ => rfl
  | [c], h => by
      simp only [noTokAt, Bool.not_eq_true'] at h
      simp [tokRun, h]
  | c :: c' :: rest, h => by
      simp only [noTokAt, Bool.and_eq_true, Bool.not_eq_true'] at h
      simp [tokRun, h.1.1, h.1.2]

theorem noTokAt_tail : ∀ (c : Char) (cs : List Char),
    noTokAt (c :: cs) = true → noTokAt cs = true
  | _, [], _ => rfl
  | c, c' :: rest, h => by
      simp only [noTokAt, Bool.and_eq_true] at h
      exact h.2

theorem tokScan_of_noTok : ∀ (fuel : Nat) (cs : List Char),
    noTokAt cs = true → tokScan fuel cs = []
  | 0, _, _ => rfl
  | _ + 1, [], _ => rfl
  | fuel + 1, c :: rest, h => by
      simp only [tokScan, tokRun_of_noTok _ h, List.isEmpty_nil, if_true]
      exact tokScan_of_noTok fuel rest (noTokAt_tail c rest h)

theorem lastTok_of_noTok (line : String) (h : noTokAt line.toList = true) :
    lastTok line = "" := by
  unfold lastTok
  rw [tokScan_of_noTok _ _ h]
  rfl

theorem tokRun_chars : ∀ cs : List Char, (tokRun cs).1.all tokArrowChar = true
  | [] => rfl
  | [c] => by
      by_cases h : isTokChar c <;> simp [tokRun, h, tokArrowChar]
  | c :: c' :: rest => by
      by_cases h : isTokChar c
      · have ih := tokRun_chars (c' :: rest)
        simp [tokRun, h, tokArrowChar, ih]
      · by_cases h2 : (c = '-' && c' = '>') = true
        · obtain ⟨hc, hc'⟩ : c = '-' ∧ c' = '>' := by simpa using h2
          subst hc
          subst hc'
          have ih := tokRun_chars rest
          simp [tokRun, h, tokArrowChar, ih]
        · simp [tokRun, h, h2]

theorem tokScan_chars : ∀ (fuel : Nat) (cs t : List Char),
    t ∈ tokScan fuel cs → t.all tokArrowChar = true
  | 0, _, t, h => by simp [tokScan] at h
  | _ + 1, [], t, h => by simp [tokScan] at h
  | fuel + 1, c :: rest, t, h => by
      simp only [tokScan] at h
      by_cases he : (tokRun (c :: rest)).1.isEmpty
      · rw [if_pos he] at h
        exact tokScan_chars fuel rest t h
      · rw [if_neg he] at h
        rcases List.mem_cons.1 h with rfl | hm
        · exact tokRun_chars _
        · exact tokScan_chars fuel _ t hm

theorem lastTok_chars (line : String) :
    (lastTok line).toList.all tokArrowChar = true := by
  unfold lastTok
  cases hg : (tokScan (line.length + 1) line.toList).getLast? with
  | none => rfl
  | some t =>
      have hmem : t ∈ tokScan (line.length + 1) line.toList := by
        rcases List.mem_getLast?_eq_getLast
            (l := tokScan (line.length + 1) line.toList) (x := t)
            hg with ⟨hne, ht⟩
        rw [ht]
        exact List.getLast_mem hne
      exact tokScan_chars _ _ t hmem

theorem show_errors_aux_spec (v : View) (cw : String → String) :
    ∀ errors : List ErrObj,
      (show_errors_aux v cw errors).underlines
        = errors.filterMap (fun e =>
            match e.start, e.stop with
            | some ps, some pe => some (merlin_pos v ps, merlin_pos v pe)
            | _, _ => none) ∧
      (show_errors_aux v cw errors).error_messages
        = errors.filterMap (fun e =>
            match e.start, e.stop with
            | some ps, some pe => some (err_line_region v ps pe, cw e.message)
            | _, _ => none)
  | [] => ⟨rfl, rfl⟩
  | e :: rest => by
      have ih := show_errors_aux_spec v cw rest
      rcases e with ⟨s, p, msg⟩
      rcases s with _ | ps <;> rcases p with _ | pe <;>
        simp [show_errors_aux, List.filterMap_cons, ih.1, ih.2]

/-! ### Claims -/

/-- C1 counterexample: the code keeps no generation counter, and a stale
completion result is rendered.  A first completion event (token "Li",
cursor at column 2) issues the query and stores the analyzer's entries
for "Li"; the user then types one more character, so the next completion
event runs with token "Lis" at column 3 — yet the handler returns the
completions computed for "Li" (which differ from the analyzer's answer
for "Lis") and issues no fresh query.  The superseded result is rendered,
refuting the rule that a response is applied only when its originating
generation equals the current one. -/
theorem autocomplete_stale_render_cex :
    (on_query_completions entriesLi vKeyLis [3]
        (on_query_completions entriesLi vKeyLi [2] ⟨[], none⟩).state).ret
      = AcReturn.cplns [("List\tmodule", "List")] ∧
    (on_query_completions entriesLi vKeyLis [3]
        (on_query_completions entriesLi vKeyLi [2] ⟨[], none⟩).state).calls
      = [MCall.sync] ∧
    acPfx vKeyLis [3] = "Lis" ∧
    (entriesLi "Lis" 1 3).map (fun r => (r.name ++ "\t" ++ r.desc, r.name))
      = [("ListLabels\tmodule", "ListLabels")] ∧
    decide ((("List\tmodule", "List") : String × String)
      = ("ListLabels\tmodule", "ListLabels")) = false := by
  refine ⟨rfl, rfl, rfl, rfl, by decide⟩

/-- C1 amended: instead of a generation counter, the completion handler
uses the three-valued flag `cplns_ready`: while a query is in flight
(`some false`) further completion events change nothing and return the
default; when a result is ready (`some true`) the next completion event
returns the stored completions — whatever buffer state it runs against —
and resets the flag; when the flag is unset (`none`) the event issues
exactly one `complete_cursor` query for the current token and position,
marks the flag ready and returns the default.  Stale results are not
discarded. -/
theorem autocomplete_latch (entries : String → Nat → Nat → List CEntry)
    (v : View) (locations : List Nat) :
    (∀ comps, on_query_completions entries v locations ⟨comps, some false⟩
        = ⟨⟨comps, some false⟩, AcReturn.default, [MCall.sync]⟩) ∧
    (∀ c cs, on_query_completions entries v locations ⟨c :: cs, some true⟩
        = ⟨⟨[], none⟩, AcReturn.cplns (c :: cs), [MCall.sync]⟩) ∧
    (on_query_completions entries v locations ⟨[], some true⟩
        = ⟨⟨[], none⟩, AcReturn.default, [MCall.sync]⟩) ∧
    (∀ comps,
      (on_query_completions entries v locations ⟨comps, none⟩).ret = AcReturn.default ∧
      (on_query_completions entries v locations ⟨comps, none⟩).state.ready = some true ∧
      (on_query_completions entries v locations ⟨comps, none⟩).calls
        = [MCall.sync, MCall.completeCursor (acPfx v locations)
            ((v.rowcol (locations.headD 0)).1 + 1) (v.rowcol (locations.headD 0)).2]) :=
  ⟨fun _ => rfl, fun _ _ => rfl, rfl, fun _ => ⟨rfl, rfl, rfl⟩⟩

/-- C2: every position-dependent query — type-enclosing, locate (by
cursor and by name) and complete-at-cursor — syncs the buffer with the
analyzer first: each handler's analyzer-call trace starts with `sync`,
and every position query in it is preceded by a `sync`. -/
theorem position_queries_sync_first :
    (∀ v pos, syncBeforeQueries false (typeEnclosing_init_trace v pos) = true
        ∧ (typeEnclosing_init_trace v pos).head? = some MCall.sync) ∧
    (∀ v kind, syncBeforeQueries false (locate_run_trace v kind) = true
        ∧ (locate_run_trace v kind).head? = some MCall.sync) ∧
    (∀ v name, syncBeforeQueries false (locateName_on_done_trace v name) = true
        ∧ (locateName_on_done_trace v name).head? = some MCall.sync) ∧
    (∀ entries v locations s,
        syncBeforeQueries false (on_query_completions entries v locations s).calls = true
        ∧ (on_query_completions entries v locations s).calls.head? = some MCall.sync) := by
  refine ⟨fun v pos => ⟨rfl, rfl⟩, fun v kind => ⟨rfl, rfl⟩,
    fun v name => ⟨rfl, rfl⟩, fun entries v locations s => ?_⟩
  rcases s with ⟨comps, _ | b⟩
  · exact ⟨rfl, rfl⟩
  · cases b
    · exact ⟨rfl, rfl⟩
    · rcases comps with _ | ⟨c, cs⟩
      · exact ⟨rfl, rfl⟩
      · exact ⟨rfl, rfl⟩

/-- C3: at every crossing into analyzer coordinates the 0-based editor
row is incremented by exactly one and the 0-based column is passed
unchanged: the analyzer position sent by type-enclosing (explicit
position or first selection), locate by cursor, locate by name, and the
completion query is `(row + 1, col)` for the editor position `(row, col)`
returned by `rowcol`. -/
theorem analyzer_position_conversion :
    (∀ v pos, typeEnclosing_init_trace v (some pos)
        = [MCall.sync, MCall.typeEnclosing ((v.rowcol pos).1 + 1) (v.rowcol pos).2]) ∧
    (∀ v, typeEnclosing_init_trace v none
        = [MCall.sync, MCall.typeEnclosing ((v.rowcol v.sel0).1 + 1) (v.rowcol v.sel0).2]) ∧
    (∀ v kind, locate_run_trace v kind
        = [MCall.sync,
            MCall.locate ((v.rowcol v.sel0).1 + 1) (v.rowcol v.sel0).2 (some kind) none]) ∧
    (∀ v name, locateName_on_done_trace v name
        = [MCall.sync,
            MCall.locate ((v.rowcol v.sel0).1 + 1) (v.rowcol v.sel0).2 none (some name)]) ∧
    (∀ entries v locations comps,
        (on_query_completions entries v locations ⟨comps, none⟩).calls
        = [MCall.sync, MCall.completeCursor (acPfx v locations)
            ((v.rowcol (locations.headD 0)).1 + 1) (v.rowcol (locations.headD 0)).2]) :=
  ⟨fun _ _ => rfl, fun _ => rfl, fun _ _ => rfl, fun _ _ => rfl, fun _ _ _ _ => rfl⟩

/-- C4 counterexample: `MerlinLocateNameMli` declares kind "mli" but its
`on_done` handler issues `locate` with the identifier only — the kind
argument is never passed, so the locate-by-name variants do not pass
their declared kind together with the user-entered identifier. -/
theorem locate_name_kind_cex :
    locateName_on_done_trace vTriv "List.map"
      = [MCall.sync, MCall.locate 1 0 none (some "List.map")] ∧
    MerlinLocateNameMli_kind = "mli" ∧
    decide ((none : Option String) = some MerlinLocateNameMli_kind) = false :=
  ⟨rfl, rfl, by decide⟩

/-- C4 amended: the cursor-driven locate variants issue `locate` with the
kind their (effective) class declares — "mli", "ml" and, because the
`MerlinLocateMf` class is defined twice and the later definition shadows
the earlier, "mfi" rather than "mf" — while the locate-by-name variants
declare kinds "mli", "ml", "mf" but issue `locate` with the user-entered
identifier only and no kind at all. -/
theorem locate_variants_kinds :
    MerlinLocateMli_kind = "mli" ∧ MerlinLocateMl_kind = "ml"
      ∧ MerlinLocateMf_kind = "mfi" ∧ MerlinLocateMf_kind_shadowed = "mf"
      ∧ MerlinLocateNameMli_kind = "mli" ∧ MerlinLocateNameMl_kind = "ml"
      ∧ MerlinLocateNameMf_kind = "mf" ∧ MerlinLocateNameMf_kind_shadowed = "mfi" ∧
    (∀ v k, locate_run_trace v k
        = [MCall.sync,
            MCall.locate ((v.rowcol v.sel0).1 + 1) (v.rowcol v.sel0).2 (some k) none]) ∧
    (∀ v n, locateName_on_done_trace v n
        = [MCall.sync,
            MCall.locate ((v.rowcol v.sel0).1 + 1) (v.rowcol v.sel0).2 none (some n)]) :=
  ⟨rfl, rfl, rfl, rfl, rfl, rfl, rfl, rfl, fun _ _ => rfl, fun _ _ => rfl⟩

/-- C5: a locate result carrying a position and an external file opens
that file at the (1-based line, 1-based column) encoded position; one
carrying only a position moves the caret of the current view to the
converted offset; a plain message string is shown in a dialog.  The
three input cases are exhaustive and the three UI actions are pairwise
distinct. -/
theorem locate_result_cases :
    (∀ v f p, merlin_locate_result v (LocateResult.found (some f) p)
        = UIAction.openFile
            (f ++ ":" ++ toString p.line ++ ":" ++ toString (p.col + 1))) ∧
    (∀ v p, merlin_locate_result v (LocateResult.found none p)
        = UIAction.moveCaret (merlin_pos v p)) ∧
    (∀ v s, merlin_locate_result v (LocateResult.message s) = UIAction.dialog s) ∧
    (∀ r : LocateResult, (∃ f p, r = LocateResult.found (some f) p)
        ∨ (∃ p, r = LocateResult.found none p) ∨ (∃ s, r = LocateResult.message s)) ∧
    (∀ e o s, decide (UIAction.openFile e = UIAction.moveCaret o) = false
        ∧ decide (UIAction.openFile e = UIAction.dialog s) = false
        ∧ decide (UIAction.moveCaret o = UIAction.dialog s) = false) := by
  refine ⟨fun _ _ _ => rfl, fun _ _ => rfl, fun _ _ => rfl, ?_, ?_⟩
  · intro r
    rcases r with ⟨_ | f, p⟩ | s
    · exact Or.inr (Or.inl ⟨p, rfl⟩)
    · exact Or.inl ⟨f, p, rfl⟩
    · exact Or.inr (Or.inr ⟨s, rfl⟩)
  · intro e o s
    exact ⟨rfl, rfl, rfl⟩

/-- C6: the completion handler returns the same default value — modelling
`([], sublime.INHIBIT_WORD_COMPLETIONS)` — when the asynchronous result
is not yet ready (flag `some false`), when the query it issues gets zero
entries from the analyzer (flag `none`, empty response), and on the
follow-up event that consumes a ready-but-empty result; the editor
cannot tell these states apart. -/
theorem empty_and_pending_default
    (entries : String → Nat → Nat → List CEntry) (v : View) (locations : List Nat)
    (sPend sNew sZero : AcState)
    (hPend : sPend.ready = some false)
    (hNew : sNew.ready = none)
    (hEmpty : entries (acPfx v locations)
        ((v.rowcol (locations.headD 0)).1 + 1) (v.rowcol (locations.headD 0)).2 = [])
    (hZr : sZero.ready = some true) (hZc : sZero.completions = []) :
    (on_query_completions entries v locations sPend).ret = AcReturn.default ∧
    (on_query_completions entries v locations sNew).ret = AcReturn.default ∧
    (on_query_completions entries v locations sZero).ret = AcReturn.default := by
  rcases sPend with ⟨c1, r1⟩
  rcases sNew with ⟨c2, r2⟩
  rcases sZero with ⟨c3, r3⟩
  simp only at hPend hNew hZr hZc
  subst hPend
  subst hNew
  subst hZr
  subst hZc
  exact ⟨rfl, rfl, rfl⟩

/-- C6 witness: concrete instantiation with an analyzer returning no
entries, a pending state, a fresh state and a ready-but-empty state. -/
theorem empty_and_pending_default_witness :
    (on_query_completions (fun _ _ _ => []) vTriv [0] ⟨[], some false⟩).ret
      = AcReturn.default ∧
    (on_query_completions (fun _ _ _ => []) vTriv [0] ⟨[], none⟩).ret
      = AcReturn.default ∧
    (on_query_completions (fun _ _ _ => []) vTriv [0] ⟨[], some true⟩).ret
      = AcReturn.default :=
  empty_and_pending_default (fun _ _ _ => []) vTriv [0]
    ⟨[], some false⟩ ⟨[], none⟩ ⟨[], some true⟩ rfl rfl rfl rfl rfl

/-- C7: every menu-driven command handler is inert on cancel: when the
choice menu reports index -1, no analyzer call is issued, no selection is
changed and no file is opened. -/
theorem cancel_is_noop :
    (∀ modules, loadPackage_on_done modules (-1) = []) ∧
    (∀ dirs, removeBuildPath_on_done dirs (-1) = []) ∧
    (∀ dirs, removeSourcePath_on_done dirs (-1) = []) ∧
    (∀ exts, enableExtension_on_done exts (-1) = []) ∧
    (∀ exts, disableExtension_on_done exts (-1) = []) ∧
    (∀ v enclosing, typeEnclosing_on_done v enclosing (-1) = none) ∧
    (∀ files exts, which_on_done files exts (-1) = ([], false)) :=
  ⟨fun _ => rfl, fun _ => rfl, fun _ => rfl, fun _ => rfl, fun _ => rfl,
    fun _ _ => rfl, fun _ _ => rfl⟩

/-- C8: `_first` unconditionally reads element 0 of the enclosing list,
so showing the type panel is only defined for a non-empty type-enclosing
result: on a cons the panel shows the formatted first item, and on an
empty result the panel-showing path hits the out-of-bounds branch
(`none`, the uncaught `IndexError`) instead of displaying nothing. -/
theorem type_panel_first_empty :
    (∀ lang, te_first lang [] = none) ∧
    (∀ lang item rest, te_first lang (item :: rest) = some (item_format lang item)) ∧
    (∀ lang enclosing, show_panel_popup lang enclosing = none ↔ enclosing = []) := by
  refine ⟨fun _ => rfl, fun _ _ _ => rfl, fun lang enclosing => ?_⟩
  cases enclosing <;> simp [show_panel_popup, te_first]

/-- C9: the completion token sent to the analyzer is the last
`([\w.]|->)+` match on the line before the cursor — every character of
it is a word character, a dot, or an arrow character — and on a line
where the regex matches nowhere the caught lookup failure yields the
empty token while the `complete_cursor` query is still issued, with that
empty token. -/
theorem no_token_empty_pfx_query
    (entries : String → Nat → Nat → List CEntry) (v : View) (locations : List Nat)
    (comps : List (String × String))
    (h : noTokAt (acLineText v locations).toList = true) :
    (∀ line, (lastTok line).toList.all tokArrowChar = true) ∧
    acPfx v locations = "" ∧
    (on_query_completions entries v locations ⟨comps, none⟩).calls
      = [MCall.sync, MCall.completeCursor ""
          ((v.rowcol (locations.headD 0)).1 + 1) (v.rowcol (locations.headD 0)).2] := by
  have hp : acPfx v locations = "" := lastTok_of_noTok _ h
  refine ⟨lastTok_chars, hp, ?_⟩
  show [MCall.sync, MCall.completeCursor (acPfx v locations) _ _] = _
  rw [hp]

/-- C9 witness: on the tokenless line "( + " the sent token is empty and
the query is still issued. -/
theorem no_token_empty_pfx_query_witness :
    (∀ line, (lastTok line).toList.all tokArrowChar = true) ∧
    acPfx vNoTok [4] = "" ∧
    (on_query_completions (fun _ _ _ => []) vNoTok [4] ⟨[], none⟩).calls
      = [MCall.sync, MCall.completeCursor "" 1 4] :=
  no_token_empty_pfx_query (fun _ _ _ => []) vNoTok [4] [] (by decide)

/-- C10: a reported diagnostic contributes an underline region and a
stored message if and only if it carries both a start and an end
position — those lacking either field are dropped — and the stored
message list is fully replaced on every report: the previous list does
not flow into the result. -/
theorem show_errors_filter_replace (v : View) (cw : String → String)
    (errors : List ErrObj) (prev : List ((Int × Int) × String)) :
    show_errors v cw errors prev = show_errors v cw errors [] ∧
    (show_errors v cw errors prev).underlines
      = errors.filterMap (fun e =>
          match e.start, e.stop with
          | some ps, some pe => some (merlin_pos v ps, merlin_pos v pe)
          | _, _ => none) ∧
    (show_errors v cw errors prev).error_messages
      = errors.filterMap (fun e =>
          match e.start, e.stop with
          | some ps, some pe => some (err_line_region v ps pe, cw e.message)
          | _, _ => none) :=
  ⟨rfl, (show_errors_aux_spec v cw errors).1, (show_errors_aux_spec v cw errors).2⟩

end SublimeMerlin
